import Mathlib

/-!
Verification development for the `intercom_api` ESP32 endpoint
(`src/esphome_components/intercom_api/intercom_api.cpp` and
`intercom_protocol.h`).  The definitions below are a shallow embedding of
the wire-protocol codec, the socket send/receive routines, and the
call-management state machine of that translation unit; theorems settle
the behavioural claims about them.
-/

namespace Intercom

/-! ## Protocol constants (`intercom_protocol.h`) -/

def HEADER_SIZE : Nat := 4
def MAX_AUDIO_CHUNK : Nat := 2048
def MAX_MESSAGE_SIZE : Nat := HEADER_SIZE + MAX_AUDIO_CHUNK + 64
def AUDIO_CHUNK_SIZE : Nat := 512
def RX_BUFFER_SIZE : Nat := 8192
def TX_BUFFER_SIZE : Nat := 2048
def AEC_REF_DELAY_MS : Nat := 80
def AEC_REF_DELAY_SAMPLES : Nat := 16000 * AEC_REF_DELAY_MS / 1000
def AEC_REF_DELAY_BYTES : Nat := AEC_REF_DELAY_SAMPLES * 2
def PING_INTERVAL_MS : Nat := 5000

/-- Message type byte values fixed by `enum class MessageType`. -/
def msgAudio : Nat := 0x01
def msgSTART : Nat := 0x02
def msgSTOP : Nat := 0x03
def msgPING : Nat := 0x04
def msgPONG : Nat := 0x05
def msgERROR : Nat := 0x06
def msgRING : Nat := 0x07
def msgANSWER : Nat := 0x08

/-- Flag bit `MessageFlags::NO_RING`. -/
def flagNO_RING : Nat := 0x02

/-- Error reason byte `ErrorCode::BUSY`. -/
def errBUSY : Nat := 0x01

/-- Unsigned 32-bit wrap-around difference, as computed by
`millis() - t` on `uint32_t` values. -/
def sub32 (now t : Nat) : Nat :=
  ((now % 2 ^ 32) + 2 ^ 32 - t % 2 ^ 32) % 2 ^ 32

/-! ## Frame encoding

`send_message_` builds the outbound frame as the packed little-endian
`MessageHeader` (`type : u8`, `flags : u8`, `length : u16`) followed by
the payload bytes (`intercom_api.cpp`, frame build in `send_message_`). -/

/-- Byte stream of one wire frame: 4-byte little-endian header then the
payload.  The `u8`/`u16` casts of the C code are the `% 256` / `% 65536`
reductions. -/
def encodeFrame (ty fl : Nat) (payload : List Nat) : List Nat :=
  ty % 256 :: fl % 256 :: payload.length % 65536 % 256 ::
    payload.length % 65536 / 256 :: payload

theorem encodeFrame_length (ty fl : Nat) (payload : List Nat) :
    (encodeFrame ty fl payload).length = 4 + payload.length := by
  simp [encodeFrame]; omega

/-! ## Framed receive (`receive_message_`)

The receive routine runs over a non-blocking socket.  We model the
kernel side of `recv` as a list of events: `data c` means the next
`recv` call can return (up to) the bytes `c`; `wb` means `recv` fails
with `EAGAIN`/`EWOULDBLOCK`.  A `recv` asking for fewer bytes than the
head chunk holds consumes only part of it; the remainder stays at the
head of the stream, exactly as bytes stay in the socket buffer.  An
empty `data` chunk models `recv` returning `0` (peer closed), and an
exhausted event list models a socket that never becomes readable
again. -/

inductive RxEv : Type
  | data (c : List Nat)
  | wb
deriving DecidableEq, Repr

/-- Retry budget `MAX_RETRY` of `receive_message_`: at most 50
consecutive would-block results, reset whenever any bytes arrive. -/
def MAX_RETRY : Nat := 50

/-- Loop of `receive_message_` that gathers exactly `need` bytes,
mirroring the header loop and the payload loop of the source: on data
the retry counter resets to zero, on would-block it increments and the
loop aborts once it reaches `MAX_RETRY`, on `recv` returning `0` or a
hard error the routine fails.  Returns the gathered bytes and the
remaining stream. -/
def readLoop : List RxEv → Nat → Nat → Option (List Nat × List RxEv)
  | evs, 0, _ => some ([], evs)
  | [], _ + 1, _ => none
  | .wb :: rest, n + 1, r =>
      if r + 1 ≥ MAX_RETRY then none else readLoop rest (n + 1) (r + 1)
  | .data c :: rest, n + 1, _ =>
      if c = [] then none
      else if c.length ≤ n + 1 then
        match readLoop rest (n + 1 - c.length) 0 with
        | some (bs, rest') => some (c ++ bs, rest')
        | none => none
      else some (c.take (n + 1), .data (c.drop (n + 1)) :: rest)

/-- Model of `receive_message_(socket, header, buffer, MAX_MESSAGE_SIZE)`:
read exactly 4 header bytes, reject a declared payload length above
`buffer_size - HEADER_SIZE`, then read exactly `length` payload bytes.
Returns `(type, flags, payload)` on success. -/
def receiveMessage (evs : List RxEv) : Option (Nat × Nat × List Nat) :=
  match readLoop evs HEADER_SIZE 0 with
  | none => none
  | some (hdr, rest) =>
    match hdr with
    | [b0, b1, b2, b3] =>
        let len := b2 + 256 * b3
        if len > MAX_MESSAGE_SIZE - HEADER_SIZE then none
        else
          match readLoop rest len 0 with
          | none => none
          | some (payload, _) => some (b0, b1, payload)
    | _ => none

/-- Segmented delivery of a byte sequence: the bytes arrive split into
arbitrarily many nonempty TCP segments, each preceded by a run of at
most `MAX_RETRY - 1` would-block results (the largest run the retry
budget tolerates). -/
inductive Delivers : List RxEv → List Nat → Prop
  | nil : Delivers [] []
  | chunk (k : Nat) (c : List Nat) (rest : List RxEv) (bs : List Nat) :
      k ≤ MAX_RETRY - 1 → c ≠ [] → Delivers rest bs →
      Delivers (List.replicate k .wb ++ .data c :: rest) (c ++ bs)

theorem readLoop_replicate_wb (k : Nat) :
    ∀ (evs : List RxEv) (n r : Nat), r + k ≤ MAX_RETRY - 1 →
      readLoop (List.replicate k .wb ++ evs) (n + 1) r =
        readLoop evs (n + 1) (r + k) := by
  induction k with
  | zero => intro evs n r _; simp
  | succ k ih =>
      intro evs n r h
      have hlt : ¬ (r + 1 ≥ MAX_RETRY) := by
        simp only [MAX_RETRY] at h ⊢; omega
      simp only [List.replicate_succ, List.cons_append, readLoop, hlt,
        if_false, List.append_eq]
      have hih := ih evs n (r + 1) (by omega)
      rw [hih]
      have harith : r + 1 + k = r + (k + 1) := by omega
      rw [harith]

theorem take_four (a b c d : Nat) (l : List Nat) :
    (a :: b :: c :: d :: l).take 4 = [a, b, c, d] := rfl

theorem drop_four (a b c d : Nat) (l : List Nat) :
    (a :: b :: c :: d :: l).drop 4 = l := rfl

/-- Core correctness of the partial-read loop: over any segmented
delivery of `bs`, gathering `n ≤ bs.length` bytes succeeds, yields
exactly the first `n` bytes, and leaves a segmented delivery of the
remaining bytes. -/
theorem readLoop_delivers {evs : List RxEv} {bs : List Nat}
    (hD : Delivers evs bs) :
    ∀ n, n ≤ bs.length →
      ∃ rest, readLoop evs n 0 = some (bs.take n, rest) ∧
        Delivers rest (bs.drop n) := by
  induction hD with
  | nil =>
      intro n hn
      have hn0 : n = 0 := by simpa using hn
      subst hn0
      exact ⟨[], rfl, Delivers.nil⟩
  | chunk k c rest bs hk hc hrest ih =>
      intro n hn
      match n with
      | 0 =>
          refine ⟨List.replicate k RxEv.wb ++ RxEv.data c :: rest,
            by simp [readLoop], ?_⟩
          simpa using Delivers.chunk k c rest bs hk hc hrest
      | m + 1 =>
          rw [readLoop_replicate_wb k (.data c :: rest) m 0 (by omega)]
          simp only [Nat.zero_add]
          by_cases hcl : c.length ≤ m + 1
          · have hle : m + 1 - c.length ≤ bs.length := by
              simp [List.length_append] at hn; omega
            obtain ⟨rest', h1, h2⟩ := ih (m + 1 - c.length) hle
            refine ⟨rest', ?_, ?_⟩
            · simp only [readLoop, hc, if_false, hcl, if_true, h1]
              have : (c ++ bs).take (m + 1) = c ++ bs.take (m + 1 - c.length) := by
                rw [List.take_append_eq_append_take]
                congr 1
                rw [List.take_of_length_le (by omega)]
              rw [this]
            · have : (c ++ bs).drop (m + 1) = bs.drop (m + 1 - c.length) := by
                rw [List.drop_append_eq_append_drop,
                  List.drop_eq_nil_iff.mpr (by omega), List.nil_append]
              rw [this]; exact h2
          · refine ⟨.data (c.drop (m + 1)) :: rest, ?_, ?_⟩
            · simp only [readLoop, hc, if_false, hcl, if_false]
              congr 2
              rw [List.take_append_of_le_length (by omega)]
            · have hdrop : (c ++ bs).drop (m + 1) = c.drop (m + 1) ++ bs := by
                rw [List.drop_append_of_le_length (by omega)]
              rw [hdrop]
              have := Delivers.chunk 0 (c.drop (m + 1)) rest bs (by omega)
                (by intro h; have := List.drop_eq_nil_iff.mp h; omega) hrest
              simpa using this

/-- Receive routine reconstructs any validly framed message from any
segmented delivery of its bytes. -/
theorem receiveMessage_delivers {evs : List RxEv} {ty fl : Nat}
    {payload : List Nat} (hty : ty < 256) (hfl : fl < 256)
    (hlen : payload.length ≤ MAX_AUDIO_CHUNK)
    (hD : Delivers evs (encodeFrame ty fl payload)) :
    receiveMessage evs = some (ty, fl, payload) := by
  have hlen' : payload.length < 65536 := by
    simp [MAX_AUDIO_CHUNK] at hlen; omega
  have hbs : (encodeFrame ty fl payload).length = 4 + payload.length :=
    encodeFrame_length ty fl payload
  obtain ⟨rest1, h1, h2⟩ := readLoop_delivers hD 4 (by omega)
  have htake : (encodeFrame ty fl payload).take 4 =
      [ty % 256, fl % 256, payload.length % 65536 % 256,
        payload.length % 65536 / 256] := by
    simp only [encodeFrame]; exact take_four _ _ _ _ _
  have hdropbs : (encodeFrame ty fl payload).drop 4 = payload := by
    simp only [encodeFrame]; exact drop_four _ _ _ _ _
  rw [htake] at h1
  rw [hdropbs] at h2
  have hlenval : payload.length % 65536 % 256 +
      256 * (payload.length % 65536 / 256) = payload.length := by
    omega
  obtain ⟨rest2, h3, _⟩ := readLoop_delivers h2 payload.length (le_refl _)
  rw [List.take_length] at h3
  simp only [receiveMessage, HEADER_SIZE, h1, hlenval]
  have hnotover : ¬ (payload.length > MAX_MESSAGE_SIZE - 4) := by
    simp [MAX_MESSAGE_SIZE, MAX_AUDIO_CHUNK, HEADER_SIZE] at hlen ⊢; omega
  rw [if_neg ?_]
  · rw [h3, Nat.mod_eq_of_lt hty, Nat.mod_eq_of_lt hfl]
  · simpa [MAX_MESSAGE_SIZE, MAX_AUDIO_CHUNK, HEADER_SIZE] using hnotover

/-! ## Outbound send paths

`send_message_` stages the frame in `tx_buffer_` under `send_mutex_`
(taken with a 10 ms timeout) and loops over non-blocking `send`,
retrying remaining bytes on would-block while `millis() - start_ms`
stays within 20 ms, sleeping 1 ms per retry.  It returns `false` on
mutex timeout, budget exhaustion, `send` returning `0`, or a hard
error; it never calls `close`/`shutdown` on the socket.  The TX task's
audio paths (both AEC and non-AEC) instead build the frame in the
dedicated `audio_tx_buffer_` and issue a single `MSG_DONTWAIT` send
with no mutex and no retry, ignoring a short write.

The kernel side of `send` is modelled as a list of results: `ok n`
means the kernel accepted up to `n ≥ 1` bytes of the requested range
(`ok 0` is `send` returning `0`, i.e. connection closed), `wb` is
`EAGAIN`/`EWOULDBLOCK`, `err` a hard error. -/

inductive TxEv : Type
  | ok (n : Nat)
  | wb
  | err
deriving DecidableEq, Repr

/-- Result of one outbound send attempt sequence: whether the routine
reported success, how many bytes of the frame reached the wire, how
many 1 ms would-block sleeps were performed, and whether the routine
closed the socket (the source never does). -/
structure SendOut where
  success : Bool
  emitted : Nat
  sleeps : Nat
  closedSocket : Bool
deriving DecidableEq, Repr

/-- Retry loop of `send_message_` over the kernel model.  `total` is
`HEADER_SIZE + len`, `offset` the bytes already accepted, `elapsed`
the milliseconds slept so far (the model advances `millis()` by 1 at
each would-block sleep, the only place the loop sleeps). -/
def sendLoop (evs : List TxEv) (total offset elapsed : Nat) : SendOut :=
  if total ≤ offset then ⟨true, total, elapsed, false⟩
  else
    match evs with
    | [] => ⟨false, offset, elapsed, false⟩
    | .ok n :: rest =>
        if n = 0 then ⟨false, offset, elapsed, false⟩
        else sendLoop rest total (min total (offset + n)) elapsed
    | .wb :: rest =>
        if elapsed > 20 then ⟨false, offset, elapsed, false⟩
        else sendLoop rest total offset (elapsed + 1)
    | .err :: _ => ⟨false, offset, elapsed, false⟩

/-- Model of `send_message_`: mutex acquisition (modelled by the flag
`mutexOk`, `false` when the 10 ms `send_mutex_` take times out)
followed by the retry loop over the whole frame of `total` bytes. -/
def sendMessage (mutexOk : Bool) (evs : List TxEv) (total : Nat) : SendOut :=
  if mutexOk then sendLoop evs total 0 0 else ⟨false, 0, 0, false⟩

/-- Model of the TX task's audio frame send: one single non-blocking
`send` of the whole frame with no mutex and no retry; a short write is
not retried and a would-block or error result is ignored (the frame is
simply not, or only partially, emitted). -/
def txAudioSend (evs : List TxEv) (total : Nat) : SendOut :=
  match evs with
  | .ok n :: _ => ⟨true, min total n, 0, false⟩
  | _ => ⟨false, 0, 0, false⟩

/-- Number of distinct kernel `send` calls `txAudioSend` performs. -/
def txAudioSendCalls (_ : List TxEv) (_ : Nat) : Nat := 1

theorem sendLoop_spec (evs : List TxEv) :
    ∀ total offset elapsed, offset ≤ total → elapsed ≤ 21 →
      ((sendLoop evs total offset elapsed).success = true →
          (sendLoop evs total offset elapsed).emitted = total) ∧
        (sendLoop evs total offset elapsed).emitted ≤ total ∧
        offset ≤ (sendLoop evs total offset elapsed).emitted ∧
        (sendLoop evs total offset elapsed).sleeps ≤ 21 ∧
        (sendLoop evs total offset elapsed).closedSocket = false := by
  induction evs with
  | nil =>
      intro total offset elapsed ho he
      by_cases h : total ≤ offset
      · rw [sendLoop, if_pos h]
        exact ⟨fun _ => rfl, le_refl _, ho, he, rfl⟩
      · rw [sendLoop, if_neg h]
        exact ⟨by simp, le_of_not_le h, le_refl _, he, rfl⟩
  | cons ev rest ih =>
      intro total offset elapsed ho he
      match ev with
      | .ok n =>
          by_cases h : total ≤ offset
          · rw [sendLoop, if_pos h]
            exact ⟨fun _ => rfl, le_refl _, ho, he, rfl⟩
          · by_cases hn : n = 0
            · rw [sendLoop, if_neg h, hn, if_pos rfl]
              exact ⟨by simp, le_of_not_le h, le_refl _, he, rfl⟩
            · rw [sendLoop, if_neg h, if_neg hn]
              have hmin : offset ≤ min total (offset + n) :=
                le_min (le_of_not_le h) (Nat.le_add_right _ _)
              obtain ⟨t1, t2, t3, t4, t5⟩ :=
                ih total (min total (offset + n)) elapsed
                  (min_le_left _ _) he
              exact ⟨t1, t2, le_trans hmin t3, t4, t5⟩
      | .wb =>
          by_cases h : total ≤ offset
          · rw [sendLoop, if_pos h]
            exact ⟨fun _ => rfl, le_refl _, ho, he, rfl⟩
          · by_cases hb : elapsed > 20
            · rw [sendLoop, if_neg h, if_pos hb]
              exact ⟨by simp, le_of_not_le h, le_refl _, he, rfl⟩
            · rw [sendLoop, if_neg h, if_neg hb]
              exact ih total offset (elapsed + 1) ho (by omega)
      | .err =>
          by_cases h : total ≤ offset
          · rw [sendLoop, if_pos h]
            exact ⟨fun _ => rfl, le_refl _, ho, he, rfl⟩
          · rw [sendLoop, if_neg h]
            exact ⟨by simp, le_of_not_le h, le_refl _, he, rfl⟩

/-! ## Call-management state machine

Shallow embedding of the endpoint state relevant to the call FSM
(`IntercomApi` fields) and of the operations that read or write it.
Mutex acquisitions that the source performs with generous timeouts
(`mic_mutex_`, `speaker_mutex_`, `spk_ref_mutex_`, `client_mutex_`) are
modelled as succeeding, i.e. the un-contended executions; hardware
start/stop side effects are recorded as trigger events only.  Messages
recorded in `sends` are those passed to `send_message_` on the current
client socket; ring buffers are byte lists bounded by their capacity
on write, as `RingBuffer` drops what does not fit. -/

inductive ConnState : Type
  | DISCONNECTED | CONNECTING | CONNECTED | STREAMING
deriving DecidableEq, Repr

inductive CallState : Type
  | IDLE | OUTGOING | INCOMING | RINGING | ANSWERING | STREAMING
deriving DecidableEq, Repr

inductive CallEndReason : Type
  | NONE | LOCAL_HANGUP | REMOTE_HANGUP | DECLINED | TIMEOUT
  | BUSY | UNREACHABLE | PROTOCOL_ERROR | BRIDGE_ERROR
deriving DecidableEq, Repr

/-- Automation triggers fired by the component, in firing order. -/
inductive Ev : Type
  | connect | disconnect | startT | stopT | ringingT | streamingT
  | idleT | callEnd | incomingCall | outgoingCall | answered
  | hangup (r : CallEndReason)
  | callFailed (r : CallEndReason)
deriving DecidableEq, Repr

/-- Endpoint state: the `IntercomApi` fields the call engine reads and
writes (`call_state_`, `state_`, `client_.socket`, `client_.streaming`,
`active_`, `pending_incoming_call_`, `client_.last_ping`, the timeout
fields, the ring buffers, the AEC accumulator fill, and the
configuration flags). -/
structure EndpointState where
  callState : CallState
  connState : ConnState
  socket : Option Nat
  streaming : Bool
  active : Bool
  pendingIncomingCall : Bool
  lastPing : Nat
  ringingTimeoutMs : Nat
  ringingStartTime : Nat
  outgoingStartTime : Nat
  micRing : List Nat
  spkRing : List Nat
  spkRefRing : List Nat
  aecEnabled : Bool
  aecMicFill : Nat
  autoAnswer : Bool
  clientMode : Bool
deriving DecidableEq, Repr

/-- One execution: the state plus the outbound control messages
`(type, flags, payload)` recorded in order and the triggers fired. -/
structure Exec where
  s : EndpointState
  sends : List (Nat × Nat × List Nat)
  events : List Ev
deriving DecidableEq, Repr

/-- Bounded ring write: `RingBuffer::write` copies as many bytes as
fit and never overwrites. -/
def ringWrite (cap : Nat) (ring bytes : List Nat) : List Nat :=
  ring ++ bytes.take (cap - ring.length)

/-- Record a trigger firing. -/
def fire (ev : Ev) (e : Exec) : Exec :=
  { e with events := e.events ++ [ev] }

/-- Record `send_message_(client_.socket.load(), ty, fl, payload)`:
with no client socket `send_message_` returns `false` without
sending. -/
def emitTo (ty fl : Nat) (payload : List Nat) (e : Exec) : Exec :=
  match e.s.socket with
  | none => e
  | some _ => { e with sends := e.sends ++ [(ty, fl, payload)] }

/-- Model of `close_client_socket_`: clear the streaming flag, swap
the socket handle to none, and on a previously valid handle send a
best-effort `STOP` before shutdown/close. -/
def closeClientSocket (e : Exec) : Exec :=
  let e := { e with s := { e.s with streaming := false } }
  match e.s.socket with
  | none => e
  | some _ =>
      { e with s := { e.s with socket := none },
               sends := e.sends ++ [(msgSTOP, 0, [])] }

/-- Model of `set_call_state_`: no-op on an unchanged state, otherwise
store the new state and fire the matching trigger. -/
def setCallState (cs : CallState) (e : Exec) : Exec :=
  if e.s.callState = cs then e
  else
    let e := { e with s := { e.s with callState := cs } }
    match cs with
    | .IDLE => fire .idleT e
    | .OUTGOING => fire .outgoingCall e
    | .INCOMING => fire .incomingCall e
    | .RINGING => fire .ringingT e
    | .ANSWERING => fire .answered e
    | .STREAMING => fire .streamingT e

/-- Failure-class end reasons, routed to the `call_failed` trigger by
`end_call_`. -/
def isFailureReason : CallEndReason → Bool
  | .UNREACHABLE | .BUSY | .PROTOCOL_ERROR | .BRIDGE_ERROR => true
  | _ => false

/-- Model of `end_call_(reason)`: nothing when already `IDLE`,
otherwise fire `call_failed` or `hangup` with the reason, the legacy
triggers, and transition to `IDLE`. -/
def endCall (reason : CallEndReason) (e : Exec) : Exec :=
  if e.s.callState = CallState.IDLE then e
  else
    let e := if isFailureReason reason then fire (.callFailed reason) e
             else fire (.hangup reason) e
    let e := fire .callEnd e
    let e := fire .stopT e
    setCallState .IDLE e

/-- Model of `set_active_`: toggle the flag and fire the start/stop
trigger; the microphone/speaker hardware start and the single-owner
speaker-stop handshake are external effects. -/
def setActive (flag : Bool) (e : Exec) : Exec :=
  if e.s.active = flag then e
  else
    let e := { e with s := { e.s with active := flag } }
    if flag then fire .startT e else fire .stopT e

/-- Model of `set_streaming_`: store the streaming flag and the
transport state; on `true` reset the mic and speaker rings, reset the
AEC buffers when AEC is enabled (`reset_aec_buffers_`: accumulator
fill to zero, reference ring cleared and pre-filled with
`AEC_REF_DELAY_BYTES` of silence), and enter `CallState::STREAMING`. -/
def setStreaming (flag : Bool) (e : Exec) : Exec :=
  let cs := if flag then ConnState.STREAMING else ConnState.CONNECTED
  let e := { e with s := { e.s with streaming := flag, connState := cs } }
  if flag then
    let s := { e.s with micRing := [], spkRing := [] }
    let refSeed := ringWrite (AEC_REF_DELAY_BYTES + RX_BUFFER_SIZE) []
      (List.replicate AEC_REF_DELAY_BYTES 0)
    let s := if s.aecEnabled then
        { s with aecMicFill := 0, spkRefRing := refSeed }
      else s
    setCallState .STREAMING { e with s := s }
  else e

/-- Model of `is_ringing()`: transport `CONNECTED`, a client socket
present, not streaming, and a pending incoming call. -/
def isRinging (s : EndpointState) : Bool :=
  decide (s.connState = ConnState.CONNECTED) && s.socket.isSome &&
    !s.streaming && s.pendingIncomingCall

/-- Model of `answer_call()`: refuse unless `is_ringing()`, then send
`ANSWER` and go `ANSWERING`, activate audio, and enter streaming. -/
def answerCall (e : Exec) : Exec :=
  if !isRinging e.s then e
  else
    match e.s.socket with
    | none => e
    | some _ =>
        let e := { e with sends := e.sends ++ [(msgANSWER, 0, [])] }
        let e := setCallState .ANSWERING e
        let e := setActive true e
        setStreaming true e

/-- Model of `handle_message_` dispatching one received frame
`(ty, fl, payload)` at time `now` (caller-name publication to the text
sensor is not part of the call engine state). -/
def handleMessage (ty fl : Nat) (payload : List Nat) (now : Nat)
    (e : Exec) : Exec :=
  if ty = msgAudio then
    let s := { e.s with spkRing := ringWrite RX_BUFFER_SIZE e.s.spkRing payload }
    let s := if s.connState = ConnState.STREAMING then s
             else { s with connState := ConnState.STREAMING }
    let e := { e with s := s }
    if e.s.callState = CallState.OUTGOING then setCallState .STREAMING e else e
  else if ty = msgSTART then
    if fl.testBit 1 then
      let e := { e with s := { e.s with outgoingStartTime := now } }
      let e := setCallState .OUTGOING e
      let e := setActive true e
      let e := { e with s :=
        { e.s with streaming := true, connState := ConnState.STREAMING } }
      emitTo msgPONG 0 [] e
    else if e.s.autoAnswer then
      let e := setCallState .ANSWERING e
      let e := setActive true e
      let e := setStreaming true e
      emitTo msgPONG 0 [] e
    else
      let e := setCallState .INCOMING e
      let e := { e with s := { e.s with connState := ConnState.CONNECTED } }
      let e := emitTo msgRING 0 [] e
      let e := { e with s := { e.s with ringingStartTime := now } }
      setCallState .RINGING e
  else if ty = msgSTOP then
    let e := setStreaming false e
    let e := closeClientSocket e
    let e := setActive false e
    let e := { e with s := { e.s with connState := ConnState.DISCONNECTED } }
    endCall .REMOTE_HANGUP e
  else if ty = msgPING then
    emitTo msgPONG 0 [] e
  else if ty = msgPONG then
    let e := { e with s := { e.s with lastPing := now } }
    if e.s.clientMode ∧ e.s.connState = ConnState.CONNECTED then
      { e with s :=
        { e.s with streaming := true, connState := ConnState.STREAMING } }
    else e
  else if ty = msgANSWER then
    if e.s.callState = CallState.OUTGOING then
      let e := setStreaming true e
      emitTo msgPONG 0 [] e
    else if e.s.callState = CallState.RINGING then
      let e := setCallState .ANSWERING e
      let e := setActive true e
      let e := setStreaming true e
      emitTo msgPONG 0 [] e
    else e
  else e

/-- Result of one `accept_client_` invocation: the (possibly updated)
endpoint state, whether the connection was admitted, the frames sent
on the new socket when refusing, whether the new socket was
immediately closed, and the triggers fired. -/
structure AcceptResult where
  s : EndpointState
  accepted : Bool
  rejectSends : List (Nat × Nat × List Nat)
  newSocketClosed : Bool
  events : List Ev
deriving DecidableEq, Repr

/-- Model of `accept_client_` on a newly accepted socket `newSock` at
time `now`: refuse with `ERROR{BUSY}` and close when a client socket
already exists, or when the call state is neither `IDLE` nor
`OUTGOING`; otherwise install the session (socket stored, `last_ping`
stamped, streaming cleared, transport `CONNECTED`, connect trigger). -/
def acceptClient (s : EndpointState) (newSock : Nat) (now : Nat) :
    AcceptResult :=
  if s.socket.isSome then
    ⟨s, false, [(msgERROR, 0, [errBUSY])], true, []⟩
  else if s.callState ≠ CallState.IDLE ∧ s.callState ≠ CallState.OUTGOING then
    ⟨s, false, [(msgERROR, 0, [errBUSY])], true, []⟩
  else
    let s := { s with socket := some newSock, streaming := false }
    let s := { s with lastPing := now, connState := ConnState.CONNECTED }
    ⟨s, true, [], false, [Ev.connect]⟩

/-- Model of the `server_task_` branch handling a `receive_message_`
failure (connection closed, hard error, or protocol violation such as
an oversize length): clear streaming, close the client socket, stop
audio, mark disconnected, end a non-idle call with `REMOTE_HANGUP`,
and fire the disconnect trigger. -/
def onReceiveFailure (e : Exec) : Exec :=
  let e := { e with s := { e.s with streaming := false } }
  let e := closeClientSocket e
  let e := setActive false e
  let e := { e with s := { e.s with connState := ConnState.DISCONNECTED } }
  let e := if e.s.callState ≠ CallState.IDLE then endCall .REMOTE_HANGUP e
           else e
  fire .disconnect e

/-- Model of the periodic ping check at the bottom of the
`server_task_` client-handling block: with a client socket present,
send `PING` only when the transport state is not `STREAMING` and more
than `PING_INTERVAL_MS` elapsed since `last_ping` (32-bit wrap
arithmetic), then restamp `last_ping`. -/
def serverPingStep (now : Nat) (e : Exec) : Exec :=
  match e.s.socket with
  | none => e
  | some _ =>
      if e.s.connState ≠ ConnState.STREAMING ∧
          sub32 now e.s.lastPing > PING_INTERVAL_MS then
        { e with sends := e.sends ++ [(msgPING, 0, [])],
                 s := { e.s with lastPing := now } }
      else e

/-- Model of `IntercomApi::loop()`: the whole timeout poll is guarded
by `ringing_timeout_ms_ > 0`; inside it, a `RINGING` call whose
ringing age reached the timeout, and then an `OUTGOING` call whose age
reached the timeout, are closed (STOP sent by
`close_client_socket_`), marked disconnected, and ended with
`TIMEOUT`. -/
def loopStep (now : Nat) (e : Exec) : Exec :=
  if 0 < e.s.ringingTimeoutMs then
    let e :=
      if e.s.callState = CallState.RINGING ∧
          e.s.ringingTimeoutMs ≤ sub32 now e.s.ringingStartTime then
        let e := closeClientSocket e
        let e := { e with s := { e.s with connState := ConnState.DISCONNECTED } }
        endCall .TIMEOUT e
      else e
    if e.s.callState = CallState.OUTGOING ∧
        e.s.ringingTimeoutMs ≤ sub32 now e.s.outgoingStartTime then
      let e := closeClientSocket e
      let e := { e with s := { e.s with connState := ConnState.DISCONNECTED } }
      endCall .TIMEOUT e
    else e
  else e

/-- Iterated main loop over a sequence of poll times. -/
def loopIter (nows : List Nat) (e : Exec) : Exec :=
  nows.foldl (fun acc t => loopStep t acc) e

/-! ## Microphone capture callback (`on_microphone_data_`)

The callback drops data unless active, connected and streaming.  With
`mic_gain_ != 1.0f || dc_offset_removal_` it converts at most
`MAX_SAMPLES = 512` 16-bit samples through the DC-removal/gain/
saturation transform into a stack buffer and enqueues those bytes;
otherwise it enqueues the whole buffer untouched.  The per-sample
numeric transform involves `float` gain; it is abstracted as an
arbitrary function `g` on (little-endian byte pairs of) samples — the
claims about this path concern byte counts and the passthrough, not
the float arithmetic. -/

def toPairs : List Nat → List (Nat × Nat)
  | a :: b :: rest => (a, b) :: toPairs rest
  | _ => []

def fromPairs : List (Nat × Nat) → List Nat
  | [] => []
  | (a, b) :: rest => a :: b :: fromPairs rest

/-- Largest number of samples one callback invocation converts on the
preprocessing path (`MAX_SAMPLES`). -/
def MAX_SAMPLES : Nat := 512

/-- Bytes the callback offers to `mic_buffer_->write`: the converted
first `min(len/2, MAX_SAMPLES)` samples on the preprocessing path, the
raw buffer on the passthrough path. -/
def micOffered (g : Nat × Nat → Nat × Nat) (needsProc : Bool)
    (data : List Nat) : List Nat :=
  if needsProc then fromPairs (((toPairs data).take MAX_SAMPLES).map g)
  else data

/-- Model of `on_microphone_data_`: guard on active/connected/
streaming, then enqueue the offered bytes into the mic ring. -/
def onMicData (g : Nat × Nat → Nat × Nat) (needsProc : Bool)
    (data : List Nat) (s : EndpointState) : EndpointState :=
  if s.active ∧ s.socket.isSome ∧ s.streaming then
    let ring := ringWrite TX_BUFFER_SIZE s.micRing (micOffered g needsProc data)
    { s with micRing := ring }
  else s

/-! ## Claim theorems -/

/-- C4: for every message type byte, flags byte, and payload of at most
2048 bytes, encoding as the 4-byte little-endian header followed by the
payload and then decoding that byte stream yields exactly the original
`(type, flags, payload)`: the frame encoder and decoder are round-trip
exact. -/
theorem frame_codec_roundtrip (ty fl : Nat) (payload : List Nat)
    (hty : ty < 256) (hfl : fl < 256)
    (hlen : payload.length ≤ MAX_AUDIO_CHUNK) :
    receiveMessage [RxEv.data (encodeFrame ty fl payload)] =
      some (ty, fl, payload) := by
  have hne : encodeFrame ty fl payload ≠ [] := by simp [encodeFrame]
  have hD : Delivers [RxEv.data (encodeFrame ty fl payload)]
      (encodeFrame ty fl payload) := by
    have := Delivers.chunk 0 (encodeFrame ty fl payload) [] []
      (by omega) hne Delivers.nil
    simpa using this
  exact receiveMessage_delivers hty hfl hlen hD

theorem frame_codec_roundtrip_witness :
    receiveMessage [RxEv.data (encodeFrame 2 0 [72, 65])] =
      some (2, 0, [72, 65]) :=
  frame_codec_roundtrip 2 0 [72, 65] (by decide) (by decide) (by decide)

/-- C5: for every valid frame and every splitting of its bytes into
arbitrarily many TCP segments — including byte-by-byte delivery with
would-block between segments — the receive routine reconstructs the
frame exactly, looping over `recv` until the exact header and payload
counts are gathered, sleeping on would-block and resetting its retry
budget whenever any bytes arrive. -/
theorem receive_any_segmentation (ty fl : Nat) (payload : List Nat)
    (evs : List RxEv) (hty : ty < 256) (hfl : fl < 256)
    (hlen : payload.length ≤ MAX_AUDIO_CHUNK)
    (hD : Delivers evs (encodeFrame ty fl payload)) :
    receiveMessage evs = some (ty, fl, payload) :=
  receiveMessage_delivers hty hfl hlen hD

theorem receive_any_segmentation_witness :
    receiveMessage
        [RxEv.wb, RxEv.data [2], RxEv.wb, RxEv.data [0],
         RxEv.wb, RxEv.data [0], RxEv.wb, RxEv.data [0]] =
      some (2, 0, []) := by
  have h3 : Delivers [RxEv.wb, RxEv.data [0]] [0] := by
    have := Delivers.chunk 1 [0] [] [] (by decide) (by decide) Delivers.nil
    simpa using this
  have h2 : Delivers [RxEv.wb, RxEv.data [0], RxEv.wb, RxEv.data [0]]
      [0, 0] := by
    have := Delivers.chunk 1 [0] [RxEv.wb, RxEv.data [0]] [0]
      (by decide) (by decide) h3
    simpa using this
  have h1 : Delivers
      [RxEv.wb, RxEv.data [0], RxEv.wb, RxEv.data [0],
       RxEv.wb, RxEv.data [0]] [0, 0, 0] := by
    have := Delivers.chunk 1 [0]
      [RxEv.wb, RxEv.data [0], RxEv.wb, RxEv.data [0]] [0, 0]
      (by decide) (by decide) h2
    simpa using this
  have h0 : Delivers
      [RxEv.wb, RxEv.data [2], RxEv.wb, RxEv.data [0],
       RxEv.wb, RxEv.data [0], RxEv.wb, RxEv.data [0]]
      (encodeFrame 2 0 []) := by
    have := Delivers.chunk 1 [2]
      [RxEv.wb, RxEv.data [0], RxEv.wb, RxEv.data [0],
       RxEv.wb, RxEv.data [0]] [0, 0, 0]
      (by decide) (by decide) h1
    simpa [encodeFrame] using this
  exact receive_any_segmentation 2 0 [] _ (by decide) (by decide)
    (by decide) h0

/-- C2 counterexample: the claim "every outbound frame transmission,
control and audio alike, is serialized by the single send mutex ... so
no frame is emitted only partially onto the wire while the socket
stays open" is false on the code.  Even through `send_message_`, a
4-byte frame of which the kernel accepts 2 bytes before the 20 ms
would-block budget runs out is left half-emitted while the routine
returns failure without closing the socket; and a TX-task audio frame
(516 bytes) is sent by a single mutex-free `send` call with no retry,
so a short write of 4 bytes likewise leaves a partial frame on the
wire. -/
theorem send_partial_frame_counterexample :
    (sendMessage true (TxEv.ok 2 :: List.replicate 22 TxEv.wb) 4).success
        = false ∧
      (sendMessage true (TxEv.ok 2 :: List.replicate 22 TxEv.wb) 4).emitted
        = 2 ∧
      (sendMessage true (TxEv.ok 2 :: List.replicate 22 TxEv.wb)
        4).closedSocket = false ∧
      (txAudioSend [TxEv.ok 4] (HEADER_SIZE + AUDIO_CHUNK_SIZE)).emitted
        = 4 ∧
      txAudioSendCalls [TxEv.ok 4] (HEADER_SIZE + AUDIO_CHUNK_SIZE) = 1 := by
  decide

/-- C2 amended: `send_message_` (the control path; TX-task audio
bypasses it) retries remaining bytes on would-block within a bounded
budget of at most 21 one-millisecond sleeps, reports success only when
the whole frame was emitted, never emits more than the frame, and
returns failure without closing the socket on mutex timeout, budget
exhaustion, or error — though bytes already emitted stay on the
wire. -/
theorem send_message_spec (mutexOk : Bool) (evs : List TxEv)
    (total : Nat) :
    ((sendMessage mutexOk evs total).success = true →
        (sendMessage mutexOk evs total).emitted = total) ∧
      (sendMessage mutexOk evs total).emitted ≤ total ∧
      (sendMessage mutexOk evs total).sleeps ≤ 21 ∧
      (sendMessage mutexOk evs total).closedSocket = false := by
  cases mutexOk with
  | false => simp [sendMessage]
  | true =>
      obtain ⟨t1, t2, _, t4, t5⟩ :=
        sendLoop_spec evs total 0 0 (Nat.zero_le _) (by omega)
      exact ⟨by simpa [sendMessage] using t1,
        by simpa [sendMessage] using t2,
        by simpa [sendMessage] using t4,
        by simpa [sendMessage] using t5⟩

theorem send_message_spec_witness :
    (sendMessage true [TxEv.ok 516] 516).success = true ∧
      (sendMessage true [TxEv.ok 516] 516).emitted = 516 :=
  ⟨by decide, (send_message_spec true [TxEv.ok 516] 516).1 (by decide)⟩

/-- Endpoint state right after `accept_client_` admitted a peer while
idle: transport `CONNECTED`, socket present, not streaming, no pending
incoming call, auto-answer off.  Field order: callState, connState,
socket, streaming, active, pendingIncomingCall, lastPing,
ringingTimeoutMs, ringingStartTime, outgoingStartTime, micRing,
spkRing, spkRefRing, aecEnabled, aecMicFill, autoAnswer,
clientMode. -/
def c1IdleConnected : EndpointState :=
  ⟨.IDLE, .CONNECTED, some 5, false, false, false, 0, 0, 0, 0,
    [], [], [], false, 0, false, false⟩

/-- Execution state after that endpoint handled `START` (flags `0`,
caller name "HA") with auto-answer off: the call FSM is `RINGING`. -/
def c1Ringing : Exec :=
  handleMessage msgSTART 0 [72, 65] 1000 ⟨c1IdleConnected, [], []⟩

/-- C1: the claim is right about the intent but the code is broken.
After `START` puts the FSM in `RINGING` (and `RING` was sent),
`is_ringing()` is still `false` — `pending_incoming_call_` is
initialised `false` and never assigned anywhere in the translation
unit — so `answer_call()` takes its early return: it sends no `ANSWER`
and changes nothing even in the `Ringing` state. -/
theorem answer_call_has_no_effect_when_ringing :
    c1Ringing.s.callState = CallState.RINGING ∧
      c1Ringing.sends = [(msgRING, 0, [])] ∧
      c1Ringing.s.pendingIncomingCall = false ∧
      isRinging c1Ringing.s = false ∧
      answerCall c1Ringing = c1Ringing := by decide

/-- Endpoint state mid-call (streaming with a peer). -/
def c3Streaming : EndpointState :=
  ⟨.STREAMING, .STREAMING, some 7, true, true, false, 0, 0, 0, 0,
    [], [], [], false, 0, true, false⟩

/-- C3 counterexample: a received header declaring a 2177-byte payload
(above the 2112-byte buffer room) makes `receive_message_` fail, and
the `server_task_` failure branch then ends the call with
`REMOTE_HANGUP` and a `hangup` trigger — not with `PROTOCOL_ERROR`
and a `call_failed` trigger as the claim states. -/
theorem oversize_reason_counterexample :
    receiveMessage [RxEv.data [1, 0, 129, 8]] = none ∧
      (onReceiveFailure ⟨c3Streaming, [], []⟩).events =
        [Ev.stopT, Ev.hangup CallEndReason.REMOTE_HANGUP, Ev.callEnd,
          Ev.stopT, Ev.idleT, Ev.disconnect] ∧
      Ev.callFailed CallEndReason.PROTOCOL_ERROR ∉
        (onReceiveFailure ⟨c3Streaming, [], []⟩).events := by decide

/-- C3 amended: a frame whose header declares a payload length above
the receive-buffer room makes `receive_message_` fail; the server task
treats any receive failure as a disconnect: it closes the peer socket
and ends a non-idle call with reason `RemoteHangup` (a `hangup`
event), never with `ProtocolError`. -/
theorem oversize_receive_failure_spec (b0 b1 b2 b3 : Nat)
    (tail : List Nat) (evs : List RxEv) (s : EndpointState)
    (hover : b2 + 256 * b3 > MAX_MESSAGE_SIZE - HEADER_SIZE)
    (hD : Delivers evs (b0 :: b1 :: b2 :: b3 :: tail))
    (hcall : s.callState ≠ CallState.IDLE) :
    receiveMessage evs = none ∧
      (onReceiveFailure ⟨s, [], []⟩).s.socket = none ∧
      (onReceiveFailure ⟨s, [], []⟩).s.callState = CallState.IDLE ∧
      Ev.hangup CallEndReason.REMOTE_HANGUP ∈
        (onReceiveFailure ⟨s, [], []⟩).events ∧
      Ev.callFailed CallEndReason.PROTOCOL_ERROR ∉
        (onReceiveFailure ⟨s, [], []⟩).events := by
  constructor
  · have hlen : 4 ≤ (b0 :: b1 :: b2 :: b3 :: tail).length := by
      simp
    obtain ⟨rest, h1, _⟩ := readLoop_delivers hD 4 hlen
    rw [take_four] at h1
    have hover4 : b2 + 256 * b3 > MAX_MESSAGE_SIZE - 4 := by
      simpa [HEADER_SIZE] using hover
    simp only [receiveMessage, HEADER_SIZE, h1]
    rw [if_pos hover4]
  · cases hsock : s.socket <;> cases hact : s.active <;>
      simp [onReceiveFailure, closeClientSocket, setActive, endCall,
        setCallState, fire, isFailureReason, hcall, hsock, hact]

theorem oversize_receive_failure_spec_witness :
    receiveMessage [RxEv.data [3, 0, 65, 8]] = none ∧
      (onReceiveFailure
        ⟨⟨.RINGING, .CONNECTED, some 4, false, false, false, 0, 0, 0, 0,
          [], [], [], false, 0, false, false⟩, [], []⟩).s.callState =
        CallState.IDLE := by
  have hD : Delivers [RxEv.data [3, 0, 65, 8]] [3, 0, 65, 8] := by
    have := Delivers.chunk 0 [3, 0, 65, 8] [] [] (by decide) (by decide)
      Delivers.nil
    simpa using this
  have h := oversize_receive_failure_spec 3 0 65 8 [] _
    ⟨.RINGING, .CONNECTED, some 4, false, false, false, 0, 0, 0, 0,
      [], [], [], false, 0, false, false⟩ (by decide) hD (by decide)
  exact ⟨h.1, h.2.2.1⟩

/-- C6: an inbound connection is admitted exactly when no client
socket exists and the call state is `IDLE` or `OUTGOING`; any other
case replies `ERROR{BUSY}` on the new socket, closes it immediately,
and leaves the existing session state untouched. -/
theorem accept_policy (s : EndpointState) (newSock now : Nat) :
    ((acceptClient s newSock now).accepted = true ↔
      (s.socket = none ∧ (s.callState = CallState.IDLE ∨
        s.callState = CallState.OUTGOING))) ∧
    ((acceptClient s newSock now).accepted = false →
      (acceptClient s newSock now).s = s ∧
      (acceptClient s newSock now).rejectSends =
        [(msgERROR, 0, [errBUSY])] ∧
      (acceptClient s newSock now).newSocketClosed = true) ∧
    ((acceptClient s newSock now).accepted = true →
      (acceptClient s newSock now).s.socket = some newSock ∧
      (acceptClient s newSock now).s.streaming = false ∧
      (acceptClient s newSock now).s.lastPing = now ∧
      (acceptClient s newSock now).s.connState = ConnState.CONNECTED) := by
  cases hsock : s.socket with
  | some v => simp [acceptClient, hsock]
  | none =>
      by_cases hcs : s.callState ≠ CallState.IDLE ∧
          s.callState ≠ CallState.OUTGOING
      · simp [acceptClient, hsock, hcs]
      · simp [acceptClient, hsock, hcs]
        tauto

/-- Idle endpoint with no client socket, used to instantiate C6. -/
def c6Idle : EndpointState :=
  ⟨.IDLE, .DISCONNECTED, none, false, false, false, 0, 0, 0, 0,
    [], [], [], false, 0, true, false⟩

theorem accept_policy_witness :
    (acceptClient c6Idle 9 42).accepted = true ∧
      (acceptClient c6Idle 9 42).s.socket = some 9 := by
  have h := accept_policy c6Idle 9 42
  have hacc := h.1.mpr (by decide)
  exact ⟨hacc, ((h.2.2) hacc).1⟩

/-- Outgoing-call endpoint with stale bytes in the mic ring. -/
def c7Outgoing : EndpointState :=
  ⟨.OUTGOING, .STREAMING, some 5, true, true, false, 0, 0, 0, 0,
    [9, 9], [], [], false, 0, true, false⟩

/-- C7 counterexample: receiving the first `AUDIO` frame while
`OUTGOING` promotes the call FSM to `STREAMING` via `set_call_state_`
directly, an entry to Streaming that resets none of the rings — the
stale mic-ring bytes survive. -/
theorem streaming_entry_no_reset_counterexample :
    (handleMessage msgAudio 0 [1, 2] 0 ⟨c7Outgoing, [], []⟩).s.callState =
        CallState.STREAMING ∧
      c7Outgoing.callState ≠ CallState.STREAMING ∧
      (handleMessage msgAudio 0 [1, 2] 0 ⟨c7Outgoing, [], []⟩).s.micRing =
        [9, 9] := by decide

/-- C7 amended: every entry to Streaming through `set_streaming_(true)`
resets the mic ring and the speaker ring, and — when AEC is enabled —
resets the AEC mic accumulator and clears and pre-fills the
speaker-reference ring with `AEC_REF_DELAY_BYTES` (80 ms, 2560 bytes)
of zero samples; the promotion to `STREAMING` on first received audio
in the `OUTGOING` state bypasses these resets. -/
theorem set_streaming_entry_resets (e : Exec) :
    (setStreaming true e).s.callState = CallState.STREAMING ∧
      (setStreaming true e).s.streaming = true ∧
      (setStreaming true e).s.micRing = [] ∧
      (setStreaming true e).s.spkRing = [] ∧
      (setStreaming true e).s.aecMicFill =
        (if e.s.aecEnabled then 0 else e.s.aecMicFill) ∧
      (setStreaming true e).s.spkRefRing =
        (if e.s.aecEnabled then List.replicate AEC_REF_DELAY_BYTES 0
          else e.s.spkRefRing) := by
  have hseed : ringWrite (AEC_REF_DELAY_BYTES + RX_BUFFER_SIZE) []
      (List.replicate AEC_REF_DELAY_BYTES 0) =
      List.replicate AEC_REF_DELAY_BYTES 0 := by
    simp [ringWrite]
  cases hAec : e.s.aecEnabled <;>
    simp [setStreaming, setCallState, fire, hAec, hseed] <;>
    split <;> simp_all

/-- Connected endpoint whose last ping is stale, used for C8. -/
def c8Connected : EndpointState :=
  ⟨.IDLE, .CONNECTED, some 6, false, false, false, 0, 0, 0, 0,
    [], [], [], false, 0, true, false⟩

/-- C8: the endpoint never sends `PING` while the transport state is
`STREAMING`; and whenever a `PING` is sent, the state was not
`STREAMING` and at least `PING_INTERVAL_MS` elapsed since
`last_ping`. -/
theorem ping_only_when_not_streaming (s : EndpointState) (now : Nat) :
    (s.connState = ConnState.STREAMING →
      (serverPingStep now ⟨s, [], []⟩).sends = []) ∧
    ((msgPING, 0, ([] : List Nat)) ∈ (serverPingStep now ⟨s, [], []⟩).sends →
      s.connState ≠ ConnState.STREAMING ∧
      PING_INTERVAL_MS ≤ sub32 now s.lastPing) := by
  cases hsock : s.socket with
  | none => simp [serverPingStep, hsock]
  | some v =>
      by_cases hc : s.connState ≠ ConnState.STREAMING ∧
          sub32 now s.lastPing > PING_INTERVAL_MS
      · constructor
        · intro hstr; exact absurd hstr hc.1
        · intro _; exact ⟨hc.1, le_of_lt hc.2⟩
      · simp [serverPingStep, hsock, hc]

theorem ping_only_when_not_streaming_witness :
    c8Connected.connState ≠ ConnState.STREAMING ∧
      PING_INTERVAL_MS ≤ sub32 6000 c8Connected.lastPing := by
  have h := ping_only_when_not_streaming c8Connected 6000
  exact h.2 (by decide)

theorem toPairs_length : ∀ l : List Nat, (toPairs l).length = l.length / 2
  | [] => by simp [toPairs]
  | [a] => by simp [toPairs]
  | a :: b :: rest => by
      simp [toPairs, toPairs_length rest]
      omega

theorem fromPairs_length : ∀ l : List (Nat × Nat),
    (fromPairs l).length = 2 * l.length
  | [] => by simp [fromPairs]
  | (a, b) :: rest => by
      simp [fromPairs, fromPairs_length rest]
      omega

/-- C9: when the mic preprocessor is active, one capture callback
converts and offers to the mic ring at most `MAX_SAMPLES = 512`
samples (1024 bytes) — exactly `min(len/2, 512)` samples, so bytes
beyond that are silently discarded — while the passthrough path
offers the whole buffer unmodified; in both cases the offered bytes
are enqueued into the mic ring (bounded by its capacity). -/
theorem mic_preproc_bound (g : Nat × Nat → Nat × Nat)
    (needsProc : Bool) (data : List Nat) (s : EndpointState)
    (hact : s.active = true) (hsock : s.socket.isSome = true)
    (hstr : s.streaming = true) :
    (needsProc = true →
      (micOffered g true data).length =
        2 * min (data.length / 2) MAX_SAMPLES ∧
      (micOffered g true data).length ≤ 2 * MAX_SAMPLES) ∧
    (needsProc = false → micOffered g false data = data) ∧
    onMicData g needsProc data s =
      { s with micRing :=
          ringWrite TX_BUFFER_SIZE s.micRing (micOffered g needsProc data) } := by
  refine ⟨fun _ => ?_, fun _ => by simp [micOffered], ?_⟩
  · have hlen : (micOffered g true data).length =
        2 * min (data.length / 2) MAX_SAMPLES := by
      simp [micOffered, fromPairs_length, toPairs_length]
      omega
    exact ⟨hlen, by rw [hlen]; have := min_le_right (data.length / 2) MAX_SAMPLES; omega⟩
  · simp [onMicData, hact, hsock, hstr]

/-- Actively streaming endpoint used to instantiate C9. -/
def c9Streaming : EndpointState :=
  ⟨.STREAMING, .STREAMING, some 3, true, true, false, 0, 0, 0, 0,
    [], [], [], false, 0, true, false⟩

theorem mic_preproc_bound_witness :
    (micOffered (fun p => p) true (List.replicate 2100 0)).length =
        2 * min ((List.replicate 2100 (0 : Nat)).length / 2) MAX_SAMPLES ∧
      (micOffered (fun p => p) true (List.replicate 2100 0)).length ≤
        2 * MAX_SAMPLES := by
  have h := mic_preproc_bound (fun p => p) true (List.replicate 2100 0)
    c9Streaming rfl rfl rfl
  exact h.1 rfl

theorem loopStep_timeout_zero (now : Nat) (e : Exec)
    (h : e.s.ringingTimeoutMs = 0) : loopStep now e = e := by
  simp [loopStep, h]

/-- C10: with the configured ringing timeout at its default `0`, the
timeout poll in `loop()` is skipped entirely: any number of loop
iterations at arbitrary times leaves the state — in particular a
`RINGING` or `OUTGOING` call — exactly as it was, with no message
sent and no event fired. -/
theorem ringing_timeout_zero_never_times_out (s : EndpointState)
    (nows : List Nat) (h : s.ringingTimeoutMs = 0) :
    loopIter nows ⟨s, [], []⟩ = ⟨s, [], []⟩ := by
  have hgen : ∀ (l : List Nat) (e : Exec), e.s.ringingTimeoutMs = 0 →
      loopIter l e = e := by
    intro l
    induction l with
    | nil => intro e _; rfl
    | cons t ts ih =>
        intro e he
        have hstep := loopStep_timeout_zero t e he
        calc loopIter (t :: ts) e = loopIter ts (loopStep t e) := rfl
          _ = loopIter ts e := by rw [hstep]
          _ = e := ih e he
  exact hgen nows ⟨s, [], []⟩ h

/-- Ringing endpoint with the timeout disabled, used for C10. -/
def c10Ringing : EndpointState :=
  ⟨.RINGING, .CONNECTED, some 5, false, false, false, 0, 0, 100, 0,
    [], [], [], false, 0, false, false⟩

theorem ringing_timeout_zero_never_times_out_witness :
    loopIter [200, 1000000, 4000000000] ⟨c10Ringing, [], []⟩ =
      ⟨c10Ringing, [], []⟩ :=
  ringing_timeout_zero_never_times_out c10Ringing
    [200, 1000000, 4000000000] (by decide)

end Intercom
